import Mathlib

/-!
Verification of the "Save as JPG" browser-extension conversion pipeline.

This file gives a shallow embedding of the pipeline implemented in `sw.js`
(service worker: context-menu listener, `fetchImage`, the direct
`OffscreenCanvas` conversion, the offscreen-document fallback, `downloadBlob`,
`getSuggestedFilename`, `getTimestampFilename`) and in `offscreen.js`
(`handleConvertToJPEG`, the delegated canvas conversion), and proves or
refutes the stated properties of that code.

Conventions of the embedding:
* JavaScript numbers in the geometry computations are modelled as rationals;
  `Math.round` is modelled exactly (round half toward positive infinity).
* Strings are modelled as `List Char`; `decodeURIComponent` is modelled with
  its percent/UTF-8 decoding and its failure mode (`URIError`) as `Option`.
* Effects (network transport, canvas operations, offscreen-document
  creation, the download call) are modelled by explicit outcome parameters
  and explicit trace records, so every function is executable.
-/

namespace SaveAsJPG

/-! ### Fetcher (sw.js, `fetchImage`, lines 99-103)

The source is:
`const response = await fetch(url, { referrerPolicy: 'no-referrer' });`
`if (!response.ok) throw new Error(...)`
`return await response.blob();`

The transport either fails (the `fetch` promise rejects) or delivers a
response with a status code after some elapsed time.  The elapsed time is
part of the outcome so that the (absent) timeout handling is visible: the
function body contains no `AbortController`, no timer and no deadline, so the
elapsed time cannot influence the result. -/

/-- Outcome of the underlying network transport for one request. -/
inductive FetchOutcome where
  | networkFailure : FetchOutcome
  | response (status : Nat) (elapsedMs : Nat) : FetchOutcome
deriving DecidableEq, Repr

/-- Result of `fetchImage` as observable by its caller: the blob (tagged here
by the status of the response it came from), the thrown `HTTP <status>` error
on `!response.ok`, or the propagated transport rejection. -/
inductive FetchResult where
  | ok (status : Nat) : FetchResult
  | httpError (status : Nat) : FetchResult
  | networkError : FetchResult
deriving DecidableEq, Repr

/-- `Response.ok` per the Fetch standard: status in the range 200..299. -/
def responseOk (status : Nat) : Bool :=
  200 ≤ status && status ≤ 299

/-- Embedding of `fetchImage` (sw.js lines 99-103).  The elapsed time of the
transport is never consulted: the source installs no timeout and no abort
signal, so a response is accepted no matter how long it took. -/
def fetchImage : FetchOutcome → FetchResult
  | .networkFailure => .networkError
  | .response status _elapsedMs =>
      if responseOk status then .ok status else .httpError status

/-! ### Target-dimension computation

Both conversion strategies decide the output canvas size from the decoded
surface's intrinsic width/height.  `sw.js` lines 142-153 (direct,
`OffscreenCanvas` strategy) and `offscreen.js` lines 36-54 (delegated,
offscreen-document strategy) duplicate the logic with differences that
matter below. -/

/-- `Math.round` on a nonnegative JavaScript number: round half toward
positive infinity. -/
def jsRound (q : ℚ) : ℤ :=
  ⌊q + 1 / 2⌋

/-- Dimension computation of the direct strategy
(`convertWithOffscreenCanvas`, sw.js lines 142-153):

`if (isSVG && Math.max(width, height) < 1024) {`
`  const target = 2048;`
`  const aspect = width && height ? width / height : 1;`
`  const longer = Math.max(width, height) || 1;`
`  const scale = target / longer;`
`  width = Math.round(width * scale);`
`  height = Math.round(height * scale); }`

(`aspect` is declared in this strategy but never used.)  There is no further
adjustment: the resulting pair is passed to `new OffscreenCanvas`. -/
def offscreenCanvasDims (isSVG : Bool) (w h : Nat) : ℤ × ℤ :=
  if isSVG && decide (max w h < 1024) then
    let aspect : ℚ := if 0 < w && 0 < h then (w : ℚ) / (h : ℚ) else 1
    let longer : Nat := if max w h = 0 then 1 else max w h
    let scale : ℚ := 2048 / longer
    (jsRound (w * scale), jsRound (h * scale))
  else
    ((w : ℤ), (h : ℤ))

/-- Dimension computation of the delegated strategy (`handleConvertToJPEG`,
offscreen.js lines 40-54):

`if (isSVG && Math.max(width, height) < 1024) {`
`  const target = 2048;`
`  const aspect = width > 0 && height > 0 ? width / height : 1;`
`  const longer = Math.max(width, height) || 1;`
`  const scale = target / longer;`
`  width = Math.round((width || target) * scale);`
`  height = Math.round((height || target / aspect) * scale); }`
`if (width === 0 || height === 0) { width = 2048; height = 2048; }` -/
def offscreenDocDims (isSVG : Bool) (w h : Nat) : ℤ × ℤ :=
  let p : ℤ × ℤ :=
    if isSVG && decide (max w h < 1024) then
      let aspect : ℚ := if 0 < w && 0 < h then (w : ℚ) / (h : ℚ) else 1
      let longer : Nat := if max w h = 0 then 1 else max w h
      let scale : ℚ := 2048 / longer
      (jsRound ((if w = 0 then (2048 : ℚ) else (w : ℚ)) * scale),
       jsRound ((if h = 0 then (2048 : ℚ) / aspect else (h : ℚ)) * scale))
    else
      ((w : ℤ), (h : ℤ))
  if p.1 = 0 || p.2 = 0 then (2048, 2048) else p

/-! ### Resource flow of the direct strategy (sw.js lines 138-168)

`convertWithOffscreenCanvas` allocates an `ImageBitmap` at line 140 and calls
`bitmap.close()` exactly once, at line 165, after `ctx.drawImage` and before
`canvas.convertToBlob`.  There is no `try`/`finally` around the body, so any
throw between those two points leaves the bitmap undisposed.  The trace below
records, for each combination of success/failure of the individual canvas
operations, whether the bitmap was created and whether it was closed. -/

/-- Which of the canvas-side operations of `convertWithOffscreenCanvas`
succeed in a given run. -/
structure CanvasEnv where
  /-- `createImageBitmap(blob)` (line 140) resolves. -/
  decodeOk : Bool
  /-- `new OffscreenCanvas(width, height)` (line 155) does not throw. -/
  canvasOk : Bool
  /-- `canvas.getContext('2d')` (line 156) returns a context; when it
  returns null, the subsequent `ctx.fillRect`/`ctx.drawImage` throws. -/
  ctxOk : Bool
  /-- `ctx.drawImage(bitmap, ...)` (line 164) does not throw. -/
  drawOk : Bool
  /-- `canvas.convertToBlob(...)` (line 167) resolves. -/
  encodeOk : Bool
deriving DecidableEq, Repr

/-- Outcome of one run of a conversion strategy. -/
inductive ConvOutcome where
  | success : ConvOutcome
  | failure : ConvOutcome
deriving DecidableEq, Repr

/-- Resource trace of one run of `convertWithOffscreenCanvas`. -/
structure BitmapTrace where
  outcome : ConvOutcome
  bitmapCreated : Bool
  bitmapClosed : Bool
deriving DecidableEq, Repr

/-- Resource flow of `convertWithOffscreenCanvas` (sw.js lines 138-168),
following the straight-line order of the source: decode, canvas allocation,
context acquisition, (optional fill and) draw, `bitmap.close()` (line 165),
encode.  A failure at any step before line 165 propagates the throw with the
bitmap still open; `convertToBlob` is the only step that can fail after the
close. -/
def offscreenCanvasTrace (env : CanvasEnv) : BitmapTrace :=
  if !env.decodeOk then ⟨.failure, false, false⟩
  else if !env.canvasOk then ⟨.failure, true, false⟩
  else if !env.ctxOk then ⟨.failure, true, false⟩
  else if !env.drawOk then ⟨.failure, true, false⟩
  else if !env.encodeOk then ⟨.failure, true, true⟩
  else ⟨.success, true, true⟩

/-! ### Offscreen-document creation (sw.js lines 178-212)

`convertWithOffscreenDocument` begins with:

`const contexts = await chrome.runtime.getContexts({...});`
`const documentCreated = contexts.length === 0;`
`if (documentCreated) { await chrome.offscreen.createDocument({...}); }`

The presence check and the decision to create run synchronously when the
`getContexts` promise resolves; the creation itself is awaited.  There is no
mutex and no in-flight-creation slot anywhere in the file.  We model two
concurrent invocations under the cooperative scheduler: each task is either
about to run its presence check (its `getContexts` call is in flight),
waiting for its own `createDocument` call to complete, or past the creation
prologue.  A created document becomes visible to later presence checks when
its creation completes. -/

/-- Program counter of one invocation of the creation prologue of
`convertWithOffscreenDocument`. -/
inductive TaskPc where
  /-- `getContexts` in flight; on resolution the task runs the length check
  and, if no document is visible, synchronously issues `createDocument`. -/
  | ready : TaskPc
  /-- `createDocument` issued, its promise pending. -/
  | creating : TaskPc
  /-- Past the creation prologue. -/
  | active : TaskPc
deriving DecidableEq, Repr

/-- Shared state of two interleaved invocations of
`convertWithOffscreenDocument`. -/
structure OffscreenSys where
  /-- An offscreen document is alive (creation completed). -/
  docExists : Bool
  /-- Number of `chrome.offscreen.createDocument` calls issued so far. -/
  createCalls : Nat
  taskA : TaskPc
  taskB : TaskPc
deriving DecidableEq, Repr

/-- Advance one task by one cooperative step, per the source: a `ready` task
reads the presence of the document and either skips creation (document
visible) or issues `createDocument`; a `creating` task's creation completes,
making the document visible. -/
def stepTask (doc : Bool) (calls : Nat) (pc : TaskPc) : Bool × Nat × TaskPc :=
  match pc with
  | .ready => if doc then (doc, calls, .active) else (doc, calls + 1, .creating)
  | .creating => (true, calls, .active)
  | .active => (doc, calls, .active)

/-- Advance the chosen task (`false` = task A, `true` = task B). -/
def stepSys (pickB : Bool) (s : OffscreenSys) : OffscreenSys :=
  if pickB then
    let r := stepTask s.docExists s.createCalls s.taskB
    { s with docExists := r.1, createCalls := r.2.1, taskB := r.2.2 }
  else
    let r := stepTask s.docExists s.createCalls s.taskA
    { s with docExists := r.1, createCalls := r.2.1, taskA := r.2.2 }

/-- Run a cooperative schedule (a list of task choices). -/
def runSched (sched : List Bool) (s : OffscreenSys) : OffscreenSys :=
  match sched with
  | [] => s
  | pick :: rest => runSched rest (stepSys pick s)

/-- Initial state: no document, no creation call issued, both invocations
about to run their presence check. -/
def initSys : OffscreenSys :=
  { docExists := false, createCalls := 0, taskA := .ready, taskB := .ready }

/-! ### Settings handling across the isolation boundary

`sw.js` declares `DEFAULT_SETTINGS = { quality: 1.0, bgColor: '#ffffff',
saveAs: false }` (lines 14-18).  The delegated strategy's helper
(`offscreen.js`) substitutes its own defaults for missing fields:
line 73 `settings.quality ?? 0.92` and line 67
`settings.bgColor || '#ffffff'`.  The direct strategy (sw.js line 167)
passes `settings.quality` to `convertToBlob` unchanged and uses
`settings.bgColor` as the fill style unchanged (line 160). -/

/-- A preferences record as it crosses the message boundary: either field
may be missing/null. -/
structure RawSettings where
  quality : Option ℚ
  bgColor : Option (List Char)
deriving DecidableEq, Repr

/-- `DEFAULT_SETTINGS.quality` (sw.js line 15). -/
def DEFAULT_QUALITY : ℚ := 1

/-- Quality actually used by the helper's `canvas.toDataURL('image/jpeg',
settings.quality ?? 0.92)` (offscreen.js line 73). -/
def helperQuality (s : RawSettings) : ℚ :=
  s.quality.getD (92 / 100)

/-- Background fill actually used by the helper's
`ctx.fillStyle = settings.bgColor || '#ffffff'` (offscreen.js line 67);
`||` also replaces an empty string. -/
def helperBgColor (s : RawSettings) : List Char :=
  match s.bgColor with
  | none => "#ffffff".toList
  | some c => if c.isEmpty then "#ffffff".toList else c

/-- Quality handed to `convertToBlob` by the direct strategy (sw.js
line 167): the field is passed through without a default. -/
def directQuality (s : RawSettings) : Option ℚ :=
  s.quality

/-! ### `decodeURIComponent`

`getSuggestedFilename` calls `decodeURIComponent` on the last path segment.
Per ECMA-262, the function replaces each `%XX` escape by the byte it
denotes, decodes maximal runs of escaped bytes as UTF-8 (rejecting stray
continuation bytes, overlong encodings, surrogate code points and values
above 0x10FFFF), leaves every other character unchanged, and throws a
`URIError` on any malformed escape.  The throw is modelled as `none`. -/

/-- Value of one hexadecimal digit character (codepoints 48-57 are `0`-`9`,
65-70 are `A`-`F`, 97-102 are `a`-`f`). -/
def hexDigit (c : Char) : Option Nat :=
  let n := c.toNat
  if 48 ≤ n ∧ n ≤ 57 then some (n - 48)
  else if 65 ≤ n ∧ n ≤ 70 then some (n - 55)
  else if 97 ≤ n ∧ n ≤ 102 then some (n - 87)
  else none

/-- Read one percent escape: a percent sign followed by two hex digits.
Returns the denoted byte and the remaining characters. -/
def readPctByte : List Char → Option (Nat × List Char)
  | '%' :: h :: l :: rest =>
      match hexDigit h, hexDigit l with
      | some a, some b => some (16 * a + b, rest)
      | _, _ => none
  | _ => none

/-- A UTF-8 continuation byte: 0x80..0xBF. -/
def isContByte (b : Nat) : Bool :=
  0x80 ≤ b && b ≤ 0xBF

/-- Main loop of `decodeURIComponent`, with fuel (each step consumes at
least one input character, so fuel larger than the input length suffices). -/
def decodeLoop : Nat → List Char → Option (List Char)
  | 0, _ => none
  | _ + 1, [] => some []
  | fuel + 1, c :: rest =>
    if c = '%' then
      match readPctByte (c :: rest) with
      | none => none
      | some (b, r1) =>
        if b < 0x80 then
          (decodeLoop fuel r1).map (Char.ofNat b :: ·)
        else if 0xC2 ≤ b ∧ b ≤ 0xDF then
          match readPctByte r1 with
          | some (b2, r2) =>
            if isContByte b2 then
              (decodeLoop fuel r2).map
                (Char.ofNat ((b - 0xC0) * 64 + (b2 - 0x80)) :: ·)
            else none
          | none => none
        else if 0xE0 ≤ b ∧ b ≤ 0xEF then
          match readPctByte r1 with
          | some (b2, r2) =>
            match readPctByte r2 with
            | some (b3, r3) =>
              if isContByte b2 ∧ isContByte b3 then
                let cp := (b - 0xE0) * 4096 + (b2 - 0x80) * 64 + (b3 - 0x80)
                if 0x800 ≤ cp ∧ ¬(0xD800 ≤ cp ∧ cp ≤ 0xDFFF) then
                  (decodeLoop fuel r3).map (Char.ofNat cp :: ·)
                else none
              else none
            | none => none
          | none => none
        else if 0xF0 ≤ b ∧ b ≤ 0xF4 then
          match readPctByte r1 with
          | some (b2, r2) =>
            match readPctByte r2 with
            | some (b3, r3) =>
              match readPctByte r3 with
              | some (b4, r4) =>
                if isContByte b2 ∧ isContByte b3 ∧ isContByte b4 then
                  let cp := (b - 0xF0) * 262144 + (b2 - 0x80) * 4096 +
                    (b3 - 0x80) * 64 + (b4 - 0x80)
                  if 0x10000 ≤ cp ∧ cp ≤ 0x10FFFF then
                    (decodeLoop fuel r4).map (Char.ofNat cp :: ·)
                  else none
                else none
              | none => none
            | none => none
          | none => none
        else none
    else
      (decodeLoop fuel rest).map (c :: ·)

/-- `decodeURIComponent`; `none` models the thrown `URIError`. -/
def decodeURIComponent (l : List Char) : Option (List Char) :=
  decodeLoop (l.length + 1) l

/-! ### Filename derivation (sw.js lines 237-268)

`getSuggestedFilename(url)` parses the URL (a throw from `new URL` is caught
and yields null, as is a caught `URIError` from `decodeURIComponent`), takes
the last `/`-separated segment of the pathname, and then: cuts at the first
`?` and `#`, percent-decodes, drops the part from the last `.` on, replaces
the characters `\0 \ / : * ? " < > |` by `_`, trims whitespace, rejects an
empty result, truncates the stem to 150 characters and appends `.jpg`.

The embedding takes the parse outcome as input: `some pathname` models a
successful `new URL(url)` with that pathname, `none` a throwing constructor
(so the argument of `lastSegment` is exactly `parsed.pathname`). -/

/-- Whitespace for JavaScript `String.prototype.trim` (WhiteSpace and line
terminators per ECMA-262, by codepoint: tab 9, LF 10, VT 11, FF 12, CR 13,
space 32, NBSP 0xa0, Ogham 0x1680, the 0x2000-0x200a range, LS 0x2028,
PS 0x2029, NNBSP 0x202f, MMSP 0x205f, ideographic 0x3000, BOM 0xfeff). -/
def jsWhitespace (c : Char) : Bool :=
  let n := c.toNat
  (9 ≤ n && n ≤ 13) || n == 32 || n == 0xa0 || n == 0x1680 ||
  (0x2000 ≤ n && n ≤ 0x200a) || n == 0x2028 || n == 0x2029 ||
  n == 0x202f || n == 0x205f || n == 0x3000 || n == 0xfeff

/-- `String.prototype.trim`: drop leading and trailing whitespace. -/
def jsTrim (l : List Char) : List Char :=
  ((l.dropWhile jsWhitespace).reverse.dropWhile jsWhitespace).reverse

/-- The characters replaced by `_` (regex `[\0\\/:*?"<>|]`, sw.js
line 249). -/
def illegalFsChar (c : Char) : Bool :=
  c == Char.ofNat 0 || c == '\\' || c == '/' || c == ':' || c == '*' ||
  c == '?' || c == '"' || c == '<' || c == '>' || c == '|'

/-- One character of `name.replace(/[\0\\/:*?"<>|]/g, '_')`. -/
def sanitizeChar (c : Char) : Char :=
  if illegalFsChar c then '_' else c

/-- `parsed.pathname.split('/').pop() || ''`: the suffix after the last
slash (the whole string when there is no slash). -/
def lastSegment (p : List Char) : List Char :=
  (p.reverse.takeWhile (fun c => c != '/')).reverse

/-- `name.split('?')[0].split('#')[0]`: the prefix before the first `?`,
then before the first `#`. -/
def dropQueryFragment (l : List Char) : List Char :=
  (l.takeWhile (fun c => c != '?')).takeWhile (fun c => c != '#')

/-- `name.substring(0, name.lastIndexOf('.'))` when a dot is present
(`if (dot > -1)`, sw.js line 246), the whole name otherwise. -/
def stripExt (l : List Char) : List Char :=
  if '.' ∈ l then ((l.reverse.dropWhile (fun c => c != '.')).drop 1).reverse
  else l

/-- Embedding of `getSuggestedFilename` (sw.js lines 237-257). -/
def getSuggestedFilename (parsedPathname : Option (List Char)) : Option (List Char) :=
  match parsedPathname with
  | none => none
  | some p =>
    let name := lastSegment p
    if name.isEmpty then none
    else
      match decodeURIComponent (dropQueryFragment name) with
      | none => none
      | some n0 =>
        let n1 := stripExt n0
        let n2 := jsTrim (n1.map sanitizeChar)
        if n2.isEmpty then none
        else some (n2.take 150 ++ ('.' :: ['j', 'p', 'g']))

/-- The clock reading used by `getTimestampFilename`. -/
structure JsDate where
  year : Nat
  month : Nat
  day : Nat
  hour : Nat
  minute : Nat
  second : Nat
deriving DecidableEq, Repr

/-- Decimal digits of `n`, left-padded with `0` to width `k` (the fields of
`toISOString` are fixed-width). -/
def padDigits (k n : Nat) : List Char :=
  let ds := Nat.toDigits 10 n
  List.replicate (k - ds.length) '0' ++ ds

/-- Embedding of `getTimestampFilename` (sw.js lines 264-268):
`toISOString` renders `YYYY-MM-DDTHH:MM:SS.sssZ`; removing `-` and `:`,
replacing `T` by `_` and slicing to 15 characters leaves
`YYYYMMDD_HHMMSS`, to which `.jpg` is appended. -/
def getTimestampFilename (d : JsDate) : List Char :=
  padDigits 4 d.year ++ padDigits 2 d.month ++ padDigits 2 d.day ++
    '_' :: (padDigits 2 d.hour ++ padDigits 2 d.minute ++ padDigits 2 d.second) ++
    ('.' :: ['j', 'p', 'g'])

/-! ### Delivery (sw.js lines 220-229 and 275-282)

`downloadBlob` is:
`const dataUrl = await blobToDataURL(blob);`
`const filename = getSuggestedFilename(srcUrl) || getTimestampFilename();`
`await chrome.downloads.download({ url: dataUrl, filename, saveAs });`

and `blobToDataURL` reads the blob with `FileReader.readAsDataURL`,
producing a base64 string that embeds a full second copy of the bytes.
Nothing in `sw.js` calls `URL.createObjectURL` or `URL.revokeObjectURL`,
and no release of the data URL is scheduled. -/

/-- The reference handed to `chrome.downloads.download`.  `dataUrlCopy`
carries the bytes themselves: a base64 data URL is a full in-memory copy.
`objectUrl` is the transient, memory-backed handle that
`URL.createObjectURL` would produce; the constructor exists in the model
precisely so that the theorem can state which of the two the code builds. -/
inductive DownloadRef where
  | dataUrlCopy (bytes : List Nat) : DownloadRef
  | objectUrl (id : Nat) : DownloadRef
deriving DecidableEq, Repr

/-- One call to `chrome.downloads.download`. -/
structure DownloadCall where
  ref : DownloadRef
  filename : List Char
  saveAs : Bool
deriving DecidableEq, Repr

/-- Observable effects of one `downloadBlob` run: the download call and the
delay after which a transient reference release is scheduled (`none`: no
release is ever scheduled). -/
structure DeliveryTrace where
  call : DownloadCall
  releaseDelayMs : Option Nat
deriving DecidableEq, Repr

/-- Embedding of `blobToDataURL` (sw.js lines 275-282): the produced data
URL embeds a complete copy of the blob's bytes. -/
def blobToDataURL (bytes : List Nat) : DownloadRef :=
  .dataUrlCopy bytes

/-- The filename chosen by `downloadBlob` (sw.js line 222):
`getSuggestedFilename(srcUrl) || getTimestampFilename()`.  The fallback
fires exactly when `getSuggestedFilename` returned null (it never returns
an empty string, so `||` and a null-check agree). -/
def downloadFilename (srcPathname : Option (List Char)) (now : JsDate) : List Char :=
  (getSuggestedFilename srcPathname).getD (getTimestampFilename now)

/-- Embedding of `downloadBlob` (sw.js lines 220-229).  No
`setTimeout`/revocation appears anywhere in the function (or file), so no
release is ever scheduled. -/
def downloadBlob (bytes : List Nat) (saveAs : Bool)
    (srcPathname : Option (List Char)) (now : JsDate) : DeliveryTrace :=
  { call :=
      { ref := blobToDataURL bytes,
        filename := downloadFilename srcPathname now,
        saveAs := saveAs },
    releaseDelayMs := none }

/-! ### Top-level orchestration (sw.js lines 36-67 and 87-91)

The `chrome.contextMenus.onClicked` listener wraps
`convertAndDownload(imageUrl, settings)` — which runs
`fetchImage`, `convertToJPEG`, `downloadBlob` strictly in order — in a
single try/catch whose handler is only
`console.error('[Save as JPG] Conversion failed:', error)` (line 65).
No call to `chrome.notifications` exists anywhere in `sw.js`. -/

/-- Environment of one pipeline invocation: the transport outcome of its
fetch and whether the conversion stage (either strategy) succeeds. -/
structure PipelineEnv where
  fetchOutcome : FetchOutcome
  conversionOk : Bool
deriving DecidableEq, Repr

/-- Observable effects of one invocation of the context-menu listener. -/
structure PipelineTrace where
  /-- `chrome.downloads.download` calls (files written). -/
  downloadsStarted : Nat
  /-- `chrome.notifications.create` calls; the listener's catch block only
  logs, so the embedding can never count one. -/
  alertsShown : Nat
  /-- `console.error` calls from the catch block. -/
  consoleErrors : Nat
deriving DecidableEq, Repr

/-- Embedding of the `chrome.contextMenus.onClicked` listener (sw.js lines
36-67): the stages run in order; the first throw aborts the rest and lands
in the catch block, which logs to the console and shows nothing to the
user. -/
def contextMenuClicked (env : PipelineEnv) : PipelineTrace :=
  match fetchImage env.fetchOutcome with
  | .ok _ =>
      if env.conversionOk then
        { downloadsStarted := 1, alertsShown := 0, consoleErrors := 0 }
      else
        { downloadsStarted := 0, alertsShown := 0, consoleErrors := 1 }
  | .httpError _ =>
      { downloadsStarted := 0, alertsShown := 0, consoleErrors := 1 }
  | .networkError =>
      { downloadsStarted := 0, alertsShown := 0, consoleErrors := 1 }

/-! ## Supporting lemmas on the string model -/

theorem takeWhile_all {α : Type} {p : α → Bool} :
    ∀ {l : List α}, (∀ c ∈ l, p c = true) → l.takeWhile p = l := by
  intro l h
  induction l with
  | nil => rfl
  | cons a t ih =>
      rw [List.takeWhile_cons, if_pos (h a (List.mem_cons_self a t)),
        ih fun c hc => h c (List.mem_cons_of_mem a hc)]

theorem map_fixed {f : Char → Char} :
    ∀ {l : List Char}, (∀ c ∈ l, f c = c) → l.map f = l := by
  intro l h
  induction l with
  | nil => rfl
  | cons a t ih =>
      simp only [List.map_cons, h a (List.mem_cons_self a t), List.cons.injEq, true_and]
      exact ih fun c hc => h c (List.mem_cons_of_mem a hc)

theorem dropWhile_subset' {p : Char → Bool} :
    ∀ {l : List Char}, ∀ c ∈ l.dropWhile p, c ∈ l := by
  intro l
  induction l with
  | nil => intro c hc; simp [List.dropWhile] at hc
  | cons a t ih =>
      intro c hc
      rw [List.dropWhile_cons] at hc
      by_cases hp : p a
      · simp only [hp, if_true] at hc
        exact List.mem_cons_of_mem a (ih c hc)
      · simp only [hp, if_false] at hc
        exact hc

theorem jsTrim_subset (l : List Char) : ∀ c ∈ jsTrim l, c ∈ l := by
  intro c hc
  unfold jsTrim at hc
  rw [List.mem_reverse] at hc
  have h1 := dropWhile_subset' c hc
  rw [List.mem_reverse] at h1
  exact dropWhile_subset' c h1

theorem sanitizeChar_idem (c : Char) : sanitizeChar (sanitizeChar c) = sanitizeChar c := by
  by_cases h : illegalFsChar c
  · have h1 : sanitizeChar c = '_' := by simp [sanitizeChar, h]
    rw [h1]
    decide
  · have h1 : sanitizeChar c = c := by simp [sanitizeChar, h]
    rw [h1, h1]

theorem getTimestampFilename_ne_nil (d : JsDate) : getTimestampFilename d ≠ [] := by
  simp [getTimestampFilename]

theorem decodeLoop_no_pct :
    ∀ (fuel : Nat) (l : List Char), l.length < fuel →
      (∀ c ∈ l, c ≠ '%') → decodeLoop fuel l = some l := by
  intro fuel
  induction fuel with
  | zero => intro l hl _; exact absurd hl (Nat.not_lt_zero _)
  | succ f ih =>
      intro l hl hmem
      cases l with
      | nil => rfl
      | cons c rest =>
          have hc : ¬c = '%' := hmem c (List.mem_cons_self c rest)
          have hstep : decodeLoop (f + 1) (c :: rest) = (decodeLoop f rest).map (c :: ·) := by
            simp only [decodeLoop, if_neg hc]
          rw [hstep, ih rest (by simp only [List.length_cons] at hl; omega)
            (fun x hx => hmem x (List.mem_cons_of_mem c hx))]
          rfl

theorem decodeURIComponent_no_pct (l : List Char) (h : ∀ c ∈ l, c ≠ '%') :
    decodeURIComponent l = some l :=
  decodeLoop_no_pct (l.length + 1) l (Nat.lt_succ_self _) h

theorem lastSegment_eq_self {l : List Char} (h : ∀ c ∈ l, c ≠ '/') :
    lastSegment l = l := by
  unfold lastSegment
  rw [takeWhile_all, List.reverse_reverse]
  intro c hc
  rw [bne_iff_ne]
  exact h c (List.mem_reverse.mp hc)

theorem dropQueryFragment_eq_self {l : List Char}
    (hq : ∀ c ∈ l, c ≠ '?') (hh : ∀ c ∈ l, c ≠ '#') :
    dropQueryFragment l = l := by
  unfold dropQueryFragment
  rw [takeWhile_all fun c hc => bne_iff_ne.mpr (hq c hc)]
  exact takeWhile_all fun c hc => bne_iff_ne.mpr (hh c hc)

theorem stripExt_append (s : List Char) :
    stripExt (s ++ ('.' :: ['j', 'p', 'g'])) = s := by
  have hmem : '.' ∈ s ++ ('.' :: ['j', 'p', 'g']) := by simp
  have hrev : ('.' :: ['j', 'p', 'g']).reverse = ['g', 'p', 'j', '.'] := by decide
  simp only [stripExt, if_pos hmem, List.reverse_append, hrev]
  have hd : (['g', 'p', 'j', '.'] ++ s.reverse).dropWhile (fun c => c != '.') =
      '.' :: s.reverse := by
    simp [List.dropWhile_cons]
  rw [hd]
  simp

/-- Every `some` result of the filename derivation has the form
`stem.take 150 ++ ".jpg"` for a nonempty stem whose characters are all
fixed points of the sanitizer. -/
theorem suggested_some_shape (p n : List Char)
    (h : getSuggestedFilename (some p) = some n) :
    ∃ t : List Char, t ≠ [] ∧ (∀ c ∈ t, sanitizeChar c = c) ∧
      n = t.take 150 ++ ('.' :: ['j', 'p', 'g']) := by
  unfold getSuggestedFilename at h
  by_cases h1 : (lastSegment p).isEmpty
  · simp [h1] at h
  · rw [Bool.not_eq_true] at h1
    simp only [h1, Bool.false_eq_true, if_false] at h
    cases hdec : decodeURIComponent (dropQueryFragment (lastSegment p)) with
    | none => rw [hdec] at h; simp at h
    | some n0 =>
        rw [hdec] at h
        simp only [] at h
        by_cases h2 : (jsTrim ((stripExt n0).map sanitizeChar)).isEmpty
        · simp [h2] at h
        · rw [Bool.not_eq_true] at h2
          simp only [h2, Bool.false_eq_true, if_false, Option.some.injEq] at h
          refine ⟨jsTrim ((stripExt n0).map sanitizeChar), ?_, ?_, h.symm⟩
          · intro he
            rw [he] at h2
            simp at h2
          · intro c hc
            have hc' := jsTrim_subset _ c hc
            obtain ⟨a, -, rfl⟩ := List.mem_map.mp hc'
            exact sanitizeChar_idem a

/-! ## Claims C1, C2, C4, C5, C7, C9: direct evaluations of the embedding -/

/-- C1: the spec claims helper-context creation is single-flight — that in
no reachable interleaving of the cooperative scheduler are two offscreen
document creation calls issued, and that of N simultaneous fallback calls
exactly one issues a creation.  The code has no mutex: under the schedule
that resolves both tasks' `getContexts` before either `createDocument`
completes, both presence checks see no document and two creation calls are
issued; only a serialized schedule (second check after the first creation
completed) issues one. -/
theorem offscreen_creation_not_single_flight :
    (runSched [false, true] initSys).createCalls = 2 ∧
    (runSched [false, false, true] initSys).createCalls = 1 := by
  decide

/-- C2: `fetchImage` classifies a non-2xx status as an HTTP error and a
transport failure as a network error, but it contains no timeout: a
response that arrives after 31 seconds (31000 ms > the claimed 30-second
budget) is simply accepted — no timeout failure, no abort. -/
theorem fetchImage_no_timeout :
    fetchImage (.response 200 31000) = .ok 200 ∧
    fetchImage (.response 404 50) = .httpError 404 ∧
    fetchImage .networkFailure = .networkError := by
  decide

/-- C4: the claim says the ImageBitmap is closed on every exit path.  In
the run where `drawImage` throws (all earlier steps succeeding), the bitmap
was created but `bitmap.close()` on line 165 is never reached; only the
success path and the encode-failure path close it. -/
theorem bitmap_not_closed_on_failure :
    (offscreenCanvasTrace ⟨true, true, true, false, true⟩).bitmapCreated = true ∧
    (offscreenCanvasTrace ⟨true, true, true, false, true⟩).bitmapClosed = false ∧
    (offscreenCanvasTrace ⟨true, true, true, true, true⟩).bitmapClosed = true := by
  decide

/-- C5: the claim says delivery hands the download mechanism a transient
reference distinct from a full in-memory copy and schedules its release
after 60 seconds.  The code builds a base64 data URL — a full copy of the
encoded bytes — for every input, and never schedules any release. -/
theorem download_data_url_copy_never_released :
    ∀ (bytes : List Nat) (saveAs : Bool) (p : Option (List Char)) (now : JsDate),
      (downloadBlob bytes saveAs p now).call.ref = .dataUrlCopy bytes ∧
      (downloadBlob bytes saveAs p now).releaseDelayMs = none := by
  intro bytes saveAs p now
  exact ⟨rfl, rfl⟩

/-- C7: on a fetch that yields HTTP 404 the pipeline aborts (no download is
started) — but the catch block only logs to the console: no user-visible
alert is shown, on this or any other run, because `sw.js` contains no
notifications call at all.  On success no alert is shown either. -/
theorem failed_pipeline_no_alert_shown :
    contextMenuClicked ⟨.response 404 50, true⟩ =
      { downloadsStarted := 0, alertsShown := 0, consoleErrors := 1 } ∧
    (∀ env : PipelineEnv, (contextMenuClicked env).alertsShown = 0) := by
  refine ⟨by decide, ?_⟩
  intro env
  cases h : fetchImage env.fetchOutcome <;>
    simp [contextMenuClicked, h] <;>
    by_cases hc : env.conversionOk <;> simp [hc]

/-- C9: when the preferences record crossing the isolation boundary has a
missing/null quality, the helper encodes at 0.92 — not at the documented
default 1.0 — and substitutes `#ffffff` for a missing background color,
while the direct strategy passes the missing quality through unresolved. -/
theorem helper_defaults_differ (s : RawSettings) (hq : s.quality = none) :
    helperQuality s = 92 / 100 ∧
    helperQuality s ≠ DEFAULT_QUALITY ∧
    directQuality s = none ∧
    (s.bgColor = none → helperBgColor s = "#ffffff".toList) := by
  refine ⟨?_, ?_, ?_, ?_⟩
  · simp [helperQuality, hq]
  · simp only [helperQuality, hq, Option.getD_none, DEFAULT_QUALITY]
    norm_num
  · simp [directQuality, hq]
  · intro hb
    simp [helperBgColor, hb]

/-- Witness for C9 at the fully-missing settings record. -/
theorem helper_defaults_differ_witness :
    (RawSettings.mk none none).quality = none ∧
    (helperQuality ⟨none, none⟩ = 92 / 100 ∧
      helperQuality ⟨none, none⟩ ≠ DEFAULT_QUALITY ∧
      directQuality ⟨none, none⟩ = none ∧
      ((RawSettings.mk none none).bgColor = none →
        helperBgColor ⟨none, none⟩ = "#ffffff".toList)) :=
  ⟨rfl, helper_defaults_differ ⟨none, none⟩ rfl⟩

/-! ## Claim C3: the 2048×2048 fallback for zero intrinsic dimensions -/

/-- C3 counterexample: the claim says every source decoding to (0,0) gets
the 2048×2048 fallback square under both strategies.  The direct strategy
has no such substitution: for a vector source (and likewise a non-vector
one) of intrinsic size (0,0) it computes target (0,0). -/
theorem zero_dims_direct_strategy_unchanged :
    offscreenCanvasDims true 0 0 = (0, 0) ∧
    offscreenCanvasDims true 0 0 ≠ (2048, 2048) := by
  have h0 : offscreenCanvasDims true 0 0 = (0, 0) := by
    norm_num [offscreenCanvasDims, jsRound]
  refine ⟨h0, ?_⟩
  rw [h0]
  decide

/-- C3 amended: only the delegated strategy substitutes the 2048×2048
fallback square for (0,0) sources, and only when the source is not treated
as vector; the direct strategy leaves the dimensions at (0,0) (for vector
and non-vector alike), and the delegated strategy's vector branch instead
computes round((2048)·(2048/1)) = 4194304 on each axis. -/
theorem zero_dims_fallback_delegated_nonvector_only :
    offscreenDocDims false 0 0 = (2048, 2048) ∧
    offscreenDocDims true 0 0 = (4194304, 4194304) ∧
    offscreenCanvasDims true 0 0 = (0, 0) ∧
    offscreenCanvasDims false 0 0 = (0, 0) := by
  refine ⟨?_, ?_, ?_, ?_⟩ <;> norm_num [offscreenDocDims, offscreenCanvasDims, jsRound]

/-! ## Supporting lemmas on rounding -/

theorem jsRound_intCast (n : ℤ) : jsRound (n : ℚ) = n := by
  unfold jsRound
  rw [add_comm, Int.floor_add_int]
  norm_num

theorem jsRound_mono {a b : ℚ} (hab : a ≤ b) : jsRound a ≤ jsRound b :=
  Int.floor_le_floor (by linarith)

theorem jsRound_le (q : ℚ) : (jsRound q : ℚ) ≤ q + 1 / 2 :=
  Int.floor_le _

theorem jsRound_gt (q : ℚ) : q - 1 / 2 < (jsRound q : ℚ) := by
  have hfl := Int.sub_one_lt_floor (q + 1 / 2)
  unfold jsRound
  linarith

/-! ## Claim C6: vector upscaling to a 2048 longest edge -/

/-- C6 counterexample: the claim quantifies over every vector source with
max(intrinsicW, intrinsicH) < 1024, which includes (0,0).  There the
delegated strategy computes a 4194304-pixel longest edge and the direct
strategy a 0-pixel one — neither equals 2048. -/
theorem svg_degenerate_vector_not_2048 :
    max (offscreenDocDims true 0 0).1 (offscreenDocDims true 0 0).2 = 4194304 ∧
    max (offscreenCanvasDims true 0 0).1 (offscreenCanvasDims true 0 0).2 = 0 ∧
    (4194304 : ℤ) ≠ 2048 ∧ (0 : ℤ) ≠ 2048 := by
  have h1 : offscreenDocDims true 0 0 = (4194304, 4194304) := by
    norm_num [offscreenDocDims, jsRound]
  have h2 : offscreenCanvasDims true 0 0 = (0, 0) := by
    norm_num [offscreenCanvasDims, jsRound]
  rw [h1, h2]
  refine ⟨rfl, rfl, by decide, by decide⟩

/-- C6 amended: for vector sources with both intrinsic dimensions nonzero
and longest edge below 1024, both strategies compute identical targets,
the longest target edge is exactly 2048, and the intrinsic aspect is
preserved to within one pixel: the cross-product error |h·W − w·H| is at
most max(w, h), i.e. the target dimension inferred from the other one via
the intrinsic aspect is off by at most one pixel. -/
theorem svg_small_upscale_2048 (w h : Nat) (hw : 1 ≤ w) (hh : 1 ≤ h)
    (hmax : max w h < 1024) :
    offscreenDocDims true w h = offscreenCanvasDims true w h ∧
    max (offscreenCanvasDims true w h).1 (offscreenCanvasDims true w h).2 = 2048 ∧
    ((h : ℤ) * (offscreenCanvasDims true w h).1 -
      (w : ℤ) * (offscreenCanvasDims true w h).2).natAbs ≤ max w h := by
  have hM1 : 1 ≤ max w h := le_trans hw (le_max_left w h)
  have hM0 : max w h ≠ 0 := by omega
  have hw0 : w ≠ 0 := by omega
  have hh0 : h ≠ 0 := by omega
  have hMQ : (0 : ℚ) < ((max w h : ℕ) : ℚ) := by
    exact_mod_cast Nat.pos_of_ne_zero hM0
  have hb : (true && decide (max w h < 1024)) = true := by simp [hmax]
  have hs2 : (2 : ℚ) < 2048 / ((max w h : ℕ) : ℚ) := by
    rw [lt_div_iff₀ hMQ]
    have hlt : ((max w h : ℕ) : ℚ) < 1024 := by exact_mod_cast hmax
    linarith
  have hspos : (0 : ℚ) < 2048 / ((max w h : ℕ) : ℚ) := by linarith
  have hcanvas : offscreenCanvasDims true w h =
      (jsRound ((w : ℚ) * (2048 / ((max w h : ℕ) : ℚ))),
       jsRound ((h : ℚ) * (2048 / ((max w h : ℕ) : ℚ)))) := by
    unfold offscreenCanvasDims
    rw [if_pos hb]
    dsimp only
    rw [if_neg hM0]
  have hMselfQ : ((max w h : ℕ) : ℚ) * (2048 / ((max w h : ℕ) : ℚ)) = 2048 := by
    field_simp
  have hkey : jsRound (((max w h : ℕ) : ℚ) * (2048 / ((max w h : ℕ) : ℚ))) = 2048 := by
    rw [hMselfQ]
    have hcast : ((2048 : ℤ) : ℚ) = (2048 : ℚ) := by norm_num
    have hji := jsRound_intCast 2048
    rw [hcast] at hji
    exact hji
  have hwM : (w : ℚ) ≤ ((max w h : ℕ) : ℚ) := by exact_mod_cast le_max_left w h
  have hhM : (h : ℚ) ≤ ((max w h : ℕ) : ℚ) := by exact_mod_cast le_max_right w h
  have hA_le : jsRound ((w : ℚ) * (2048 / ((max w h : ℕ) : ℚ))) ≤ 2048 := by
    rw [← hkey]
    exact jsRound_mono (mul_le_mul_of_nonneg_right hwM (le_of_lt hspos))
  have hB_le : jsRound ((h : ℚ) * (2048 / ((max w h : ℕ) : ℚ))) ≤ 2048 := by
    rw [← hkey]
    exact jsRound_mono (mul_le_mul_of_nonneg_right hhM (le_of_lt hspos))
  have hw1 : (1 : ℚ) ≤ (w : ℚ) := by exact_mod_cast hw
  have hh1 : (1 : ℚ) ≤ (h : ℚ) := by exact_mod_cast hh
  have hws2 : (2 : ℚ) < (w : ℚ) * (2048 / ((max w h : ℕ) : ℚ)) := by nlinarith
  have hhs2 : (2 : ℚ) < (h : ℚ) * (2048 / ((max w h : ℕ) : ℚ)) := by nlinarith
  have hA2 : 2 ≤ jsRound ((w : ℚ) * (2048 / ((max w h : ℕ) : ℚ))) := by
    by_contra hcon
    push_neg at hcon
    have hle1 : jsRound ((w : ℚ) * (2048 / ((max w h : ℕ) : ℚ))) ≤ 1 := by omega
    have hle1Q : (jsRound ((w : ℚ) * (2048 / ((max w h : ℕ) : ℚ))) : ℚ) ≤ 1 := by
      exact_mod_cast hle1
    have hgt := jsRound_gt ((w : ℚ) * (2048 / ((max w h : ℕ) : ℚ)))
    linarith
  have hB2 : 2 ≤ jsRound ((h : ℚ) * (2048 / ((max w h : ℕ) : ℚ))) := by
    by_contra hcon
    push_neg at hcon
    have hle1 : jsRound ((h : ℚ) * (2048 / ((max w h : ℕ) : ℚ))) ≤ 1 := by omega
    have hle1Q : (jsRound ((h : ℚ) * (2048 / ((max w h : ℕ) : ℚ))) : ℚ) ≤ 1 := by
      exact_mod_cast hle1
    have hgt := jsRound_gt ((h : ℚ) * (2048 / ((max w h : ℕ) : ℚ)))
    linarith
  have hA0 : jsRound ((w : ℚ) * (2048 / ((max w h : ℕ) : ℚ))) ≠ 0 := by omega
  have hB0 : jsRound ((h : ℚ) * (2048 / ((max w h : ℕ) : ℚ))) ≠ 0 := by omega
  have hdoc : offscreenDocDims true w h = offscreenCanvasDims true w h := by
    rw [hcanvas]
    unfold offscreenDocDims
    rw [if_pos hb]
    dsimp only
    rw [if_neg hw0, if_neg hh0, if_neg hM0]
    have hcond0 : ¬((decide (jsRound ((w : ℚ) * (2048 / ((max w h : ℕ) : ℚ))) = 0) ||
        decide (jsRound ((h : ℚ) * (2048 / ((max w h : ℕ) : ℚ))) = 0)) = true) := by
      simp only [Bool.or_eq_true, decide_eq_true_eq, not_or]
      exact ⟨hA0, hB0⟩
    rw [if_neg hcond0]
  refine ⟨hdoc, ?_, ?_⟩
  · rw [hcanvas]
    dsimp only
    rcases max_choice w h with hmw | hmh
    · have hweq : (w : ℚ) = ((max w h : ℕ) : ℚ) := by exact_mod_cast hmw.symm
      have hAeq : jsRound ((w : ℚ) * (2048 / ((max w h : ℕ) : ℚ))) = 2048 := by
        rw [hweq]; exact hkey
      rw [hAeq]
      exact max_eq_left hB_le
    · have hheq : (h : ℚ) = ((max w h : ℕ) : ℚ) := by exact_mod_cast hmh.symm
      have hBeq : jsRound ((h : ℚ) * (2048 / ((max w h : ℕ) : ℚ))) = 2048 := by
        rw [hheq]; exact hkey
      rw [hBeq]
      exact max_eq_right hA_le
  · rw [hcanvas]
    dsimp only
    have hAub := jsRound_le ((w : ℚ) * (2048 / ((max w h : ℕ) : ℚ)))
    have hAlb := jsRound_gt ((w : ℚ) * (2048 / ((max w h : ℕ) : ℚ)))
    have hBub := jsRound_le ((h : ℚ) * (2048 / ((max w h : ℕ) : ℚ)))
    have hBlb := jsRound_gt ((h : ℚ) * (2048 / ((max w h : ℕ) : ℚ)))
    have hhQ0 : (0 : ℚ) ≤ (h : ℚ) := by positivity
    have hwQ0 : (0 : ℚ) ≤ (w : ℚ) := by positivity
    have t1 := mul_le_mul_of_nonneg_left hAub hhQ0
    have t2 := mul_le_mul_of_nonneg_left (le_of_lt hAlb) hhQ0
    have t3 := mul_le_mul_of_nonneg_left hBub hwQ0
    have t4 := mul_le_mul_of_nonneg_left (le_of_lt hBlb) hwQ0
    have habs : |(h : ℚ) * (jsRound ((w : ℚ) * (2048 / ((max w h : ℕ) : ℚ))) : ℚ) -
        (w : ℚ) * (jsRound ((h : ℚ) * (2048 / ((max w h : ℕ) : ℚ))) : ℚ)| ≤
        ((max w h : ℕ) : ℚ) := by
      rw [abs_le]
      constructor
      · linarith
      · linarith
    have hEint : |(h : ℤ) * jsRound ((w : ℚ) * (2048 / ((max w h : ℕ) : ℚ))) -
        (w : ℤ) * jsRound ((h : ℚ) * (2048 / ((max w h : ℕ) : ℚ)))| ≤
        ((max w h : ℕ) : ℤ) := by
      exact_mod_cast habs
    rw [Int.abs_eq_natAbs] at hEint
    exact_mod_cast hEint

/-- Witness for C6's amended theorem at the spec's own scenario of a 16×16
SVG, which both strategies upscale to 2048×2048. -/
theorem svg_small_upscale_2048_witness :
    1 ≤ 16 ∧ 1 ≤ 16 ∧ max 16 16 < 1024 ∧
    (offscreenDocDims true 16 16 = offscreenCanvasDims true 16 16 ∧
      max (offscreenCanvasDims true 16 16).1 (offscreenCanvasDims true 16 16).2 = 2048 ∧
      (((16 : Nat) : ℤ) * (offscreenCanvasDims true 16 16).1 -
        ((16 : Nat) : ℤ) * (offscreenCanvasDims true 16 16).2).natAbs ≤ max 16 16) :=
  ⟨by decide, by decide, by decide,
    svg_small_upscale_2048 16 16 (by decide) (by decide) (by decide)⟩

/-! ## Claim C8: idempotence of the filename derivation -/

/-- C8 counterexample: derivation output names can contain `%` (the stem is
percent-decoded once, so `%2541` becomes `%41`), and feeding such a name
back through the derivation decodes it again: `/%2541.png` derives
`%41.jpg`, but a URL ending in `/%41.jpg` derives `A.jpg`. -/
theorem filename_percent_not_idempotent :
    getSuggestedFilename (some "/%2541.png".toList) = some "%41.jpg".toList ∧
    getSuggestedFilename (some "%41.jpg".toList) = some "A.jpg".toList ∧
    some "A.jpg".toList ≠ some "%41.jpg".toList := by
  decide

/-- A stem that is nonempty, at most 150 characters, trim-stable and made of
sanitizer fixed points containing no percent or hash sign is reproduced
exactly by the derivation when suffixed with `.jpg`. -/
theorem resan_fixed (s : List Char) (hne : s ≠ []) (hlen : s.length ≤ 150)
    (htrim : jsTrim s = s)
    (hfix : ∀ c ∈ s, sanitizeChar c = c)
    (hpct : ∀ c ∈ s, c ≠ '%') (hhash : ∀ c ∈ s, c ≠ '#') :
    getSuggestedFilename (some (s ++ ('.' :: ['j', 'p', 'g']))) =
      some (s ++ ('.' :: ['j', 'p', 'g'])) := by
  have hstem : ∀ (x : Char), x ∈ s → x ≠ '/' ∧ x ≠ '?' := by
    intro x hx
    constructor
    · intro hEq
      have := hfix x hx
      rw [hEq] at this
      exact absurd this (by decide)
    · intro hEq
      have := hfix x hx
      rw [hEq] at this
      exact absurd this (by decide)
  have hslash : ∀ c ∈ s ++ ('.' :: ['j', 'p', 'g']), c ≠ '/' := by
    intro c hc
    rcases List.mem_append.mp hc with hs | he
    · exact (hstem c hs).1
    · intro hEq; rw [hEq] at he; revert he; decide
  have hq : ∀ c ∈ s ++ ('.' :: ['j', 'p', 'g']), c ≠ '?' := by
    intro c hc
    rcases List.mem_append.mp hc with hs | he
    · exact (hstem c hs).2
    · intro hEq; rw [hEq] at he; revert he; decide
  have hh : ∀ c ∈ s ++ ('.' :: ['j', 'p', 'g']), c ≠ '#' := by
    intro c hc
    rcases List.mem_append.mp hc with hs | he
    · exact hhash c hs
    · intro hEq; rw [hEq] at he; revert he; decide
  have hp : ∀ c ∈ s ++ ('.' :: ['j', 'p', 'g']), c ≠ '%' := by
    intro c hc
    rcases List.mem_append.mp hc with hs | he
    · exact hpct c hs
    · intro hEq; rw [hEq] at he; revert he; decide
  have hne2 : (s ++ ('.' :: ['j', 'p', 'g'])).isEmpty = false := by
    cases s <;> rfl
  unfold getSuggestedFilename
  dsimp only
  rw [lastSegment_eq_self hslash]
  simp only [hne2, Bool.false_eq_true, if_false]
  rw [dropQueryFragment_eq_self hq hh, decodeURIComponent_no_pct _ hp]
  simp only [stripExt_append, map_fixed hfix, htrim]
  have hne3 : s.isEmpty = false := by
    cases s with
    | nil => exact absurd rfl hne
    | cons a t => rfl
  simp only [hne3, Bool.false_eq_true, if_false, Option.some.injEq]
  rw [List.take_of_length_le hlen]

/-- C8 amended: the derivation is idempotent on every output name whose
stem (the part before the final `.jpg`) contains no percent sign and no
hash sign and is unchanged by trimming.  (The excluded names exist: a
percent or hash that survives one decoding pass, or trailing whitespace
exposed when the 150-character truncation cuts a trimmed stem, each break
idempotence, as the counterexample shows for percent.) -/
theorem filename_idempotent_clean (p n : List Char)
    (h : getSuggestedFilename (some p) = some n)
    (hpct : ∀ c ∈ n, c ≠ '%')
    (hhash : ∀ c ∈ n, c ≠ '#')
    (htrim : jsTrim (n.take (n.length - 4)) = n.take (n.length - 4)) :
    getSuggestedFilename (some n) = some n := by
  obtain ⟨t, htne, hfixall, hshape⟩ := suggested_some_shape p n h
  subst hshape
  have hstake : (t.take 150 ++ ('.' :: ['j', 'p', 'g'])).take
      ((t.take 150 ++ ('.' :: ['j', 'p', 'g'])).length - 4) = t.take 150 := by
    have hlen4 : (t.take 150 ++ ('.' :: ['j', 'p', 'g'])).length - 4 =
        (t.take 150).length := by
      simp
    rw [hlen4, List.take_left]
  rw [hstake] at htrim
  apply resan_fixed
  · intro he
    rw [List.take_eq_nil_iff] at he
    rcases he with h150 | ht
    · exact absurd h150 (by decide)
    · exact htne ht
  · simpa using Nat.min_le_left 150 t.length
  · exact htrim
  · intro c hc
    exact hfixall c (List.take_subset 150 t hc)
  · intro c hc
    exact hpct c (List.mem_append_left _ hc)
  · intro c hc
    exact hhash c (List.mem_append_left _ hc)

/-- Witness for C8's amended theorem at the spec's own scenario
`/path/photo.name.webp`, whose derived name `photo.name.jpg` is clean. -/
theorem filename_idempotent_clean_witness :
    getSuggestedFilename (some "/photo.name.webp".toList) = some "photo.name.jpg".toList ∧
    getSuggestedFilename (some "photo.name.jpg".toList) = some "photo.name.jpg".toList :=
  ⟨by decide,
    filename_idempotent_clean "/photo.name.webp".toList "photo.name.jpg".toList
      (by decide) (by decide) (by decide) (by decide)⟩

/-! ## Claim C10: totality and shape of the filename derivation -/

/-- C10: for every parse outcome (including a throwing URL constructor and
malformed percent escapes, which surface as caught errors) the derivation
returns either null or a name of the form `stem ++ ".jpg"` with a nonempty
stem of at most 150 characters; and the download call always receives a
non-empty filename thanks to the timestamp fallback. -/
theorem filename_total_shape (p : Option (List Char)) (n : List Char) (d : JsDate) :
    (getSuggestedFilename p = some n →
      ∃ stem, stem ≠ [] ∧ stem.length ≤ 150 ∧ n = stem ++ ('.' :: ['j', 'p', 'g'])) ∧
    downloadFilename p d ≠ [] := by
  constructor
  · intro h
    cases p with
    | none => simp [getSuggestedFilename] at h
    | some p' =>
        obtain ⟨t, htne, -, hshape⟩ := suggested_some_shape p' n h
        refine ⟨t.take 150, ?_, ?_, hshape⟩
        · intro he
          rw [List.take_eq_nil_iff] at he
          rcases he with h150 | ht
          · exact absurd h150 (by decide)
          · exact htne ht
        · simpa using Nat.min_le_left 150 t.length
  · unfold downloadFilename
    cases hg : getSuggestedFilename p with
    | none => simpa using getTimestampFilename_ne_nil d
    | some m =>
        simp only [Option.getD_some]
        cases p with
        | none => simp [getSuggestedFilename] at hg
        | some p' =>
            obtain ⟨t, -, -, hshape⟩ := suggested_some_shape p' m hg
            rw [hshape]
            simp

/-- Witness for C10 at a concrete URL path and clock reading. -/
theorem filename_total_shape_witness :
    getSuggestedFilename (some "/a.png".toList) = some "a.jpg".toList ∧
    (∃ stem, stem ≠ [] ∧ stem.length ≤ 150 ∧
      "a.jpg".toList = stem ++ ('.' :: ['j', 'p', 'g'])) ∧
    downloadFilename (some "/a.png".toList) ⟨2025, 12, 10, 0, 0, 0⟩ ≠ [] :=
  ⟨by decide,
    (filename_total_shape (some "/a.png".toList) "a.jpg".toList ⟨2025, 12, 10, 0, 0, 0⟩).1
      (by decide),
    (filename_total_shape (some "/a.png".toList) "a.jpg".toList ⟨2025, 12, 10, 0, 0, 0⟩).2⟩

end SaveAsJPG
